import Mathlib

set_option maxRecDepth 10000

/-!
Verification development for the two-tier healthcare cache
(`GynAid-mobile/src/utils/HealthcareCacheManager.ts`).

The embedding models the state and operations of the cache manager directly from
the TypeScript source:

* JavaScript `Map` objects become association lists (`List (String × _)`)
  with `Map.set` / `Map.delete` / `Map.get` semantics, preserving insertion
  order (a `Map.set` on an existing key keeps its position).
* `Date.now()` becomes an explicit `now : Nat` parameter.
* The arithmetic `now + config.maxAge` where `config.maxAge` may be
  `undefined` yields JavaScript `NaN`, and a `NaN` written through
  `JSON.stringify` comes back from `JSON.parse` as `null`; `expiresAt` is
  therefore a three-valued `JsTime` (`num n`, `nan`, `null`).  The source
  comparison `Date.now() > entry.expiresAt` is `false` on `NaN` but
  coerces `null` to `0` (true for every positive clock), which `isExpired`
  reproduces case by case.
* `AsyncStorage` becomes an association list of raw string keys; the
  adapter calls that the source wraps in `try/catch` (`setItem` inside
  `setToStorage`, `getItem` inside `getFromStorage`) are modelled with a
  `storageFails` flag on the state: when it is set, a write is a silent
  no-op and a read returns `none`, exactly the catch-branch behaviour.
  Every durable write goes through `serializeEntry`, the observable effect
  of the `JSON.stringify`/`JSON.parse` round trip: finite numbers and
  defined priority/type round-trip exactly, `NaN` becomes `null`, and
  `undefined` fields are dropped and read back as `undefined`.
* `Array.prototype.sort` with the comparator `aScore - bScore` becomes a
  stable insertion sort over the relation `scoreLE`; when either score is
  `NaN` (an entry with `undefined` priority or type) the comparator result
  `NaN` leaves element order unchanged, which `scoreLE` renders as `True`.
-/

/-- Priority of a cache entry, source values `low | normal | high`. -/
inductive Priority where
  | low
  | normal
  | high
  deriving DecidableEq

/-- Sensitivity class of a cache entry, the source field `type` with values
`non-critical | normal | critical`. -/
inductive Sensitivity where
  | nonCritical
  | normal
  | critical
  deriving DecidableEq

/-- Value of the `expiresAt` field.  `num n` is an ordinary timestamp;
`nan` is the `NaN` produced by `now + undefined` when no policy supplies
`maxAge`; `null` is what that `NaN` becomes after the durable tier's
`JSON.stringify`/`JSON.parse` round trip (JSON has no `NaN`). -/
inductive JsTime where
  | num (n : Nat)
  | nan
  | null
  deriving DecidableEq

/-- Source record `CacheEntry<T>`.  `priority` and `type` are `Option`
because they are `undefined` when no policy supplies them. -/
structure CacheEntry (α : Type) where
  data : α
  timestamp : Nat
  expiresAt : JsTime
  priority : Option Priority
  type : Option Sensitivity
  deriving DecidableEq

/-- Source record `CacheConfig`: a full static policy entry. -/
structure CacheConfig where
  maxAge : Nat
  priority : Priority
  type : Sensitivity
  deriving DecidableEq

/-- A `Partial<CacheConfig>` override passed to `set`: each field may be
absent. -/
structure ConfigOverride where
  maxAge : Option Nat
  priority : Option Priority
  type : Option Sensitivity
  deriving DecidableEq

/-- The empty override (caller passed no `customConfig`). -/
def noOverride : ConfigOverride := ⟨none, none, none⟩

/-- The static policy registry `cacheConfigs` of the source, keyed by
logical name. -/
def cacheConfigs (key : String) : Option CacheConfig :=
  if key = "userProfile" then some ⟨24 * 60 * 60 * 1000, .high, .critical⟩
  else if key = "medicalHistory" then some ⟨12 * 60 * 60 * 1000, .high, .critical⟩
  else if key = "emergencyContacts" then some ⟨6 * 60 * 60 * 1000, .high, .critical⟩
  else if key = "appointments" then some ⟨2 * 60 * 60 * 1000, .normal, .normal⟩
  else if key = "providers" then some ⟨4 * 60 * 60 * 1000, .normal, .normal⟩
  else if key = "healthTips" then some ⟨6 * 60 * 60 * 1000, .normal, .normal⟩
  else if key = "notifications" then some ⟨30 * 60 * 1000, .low, .nonCritical⟩
  else if key = "chatHistory" then some ⟨2 * 60 * 60 * 1000, .low, .nonCritical⟩
  else if key = "uiPreferences" then some ⟨60 * 60 * 1000, .low, .nonCritical⟩
  else none

/-- The source constant `maxMemoryCacheSize = 50`. -/
def maxMemoryCacheSize : Nat := 50

/-- The source constant `storagePrefix = "gynaid_cache_"` (namespace under
which the cache keeps its keys inside `AsyncStorage`). -/
def cacheNs : String := "gynaid_cache_"

/-- Character-list prefix test used to model the JavaScript
`key.startsWith(prefix)` call in `clear` (the built-in `String.startsWith`
does not reduce inside the kernel). -/
def listPref : List Char → List Char → Bool
  | [], _ => true
  | _ :: _, [] => false
  | c :: cs, d :: ds => decide (c = d) && listPref cs ds

/-- JavaScript `s.startsWith(pre)`. -/
def strStarts (s pre : String) : Bool := listPref pre.data s.data

/-- JavaScript `Map.set`: replace in place when the key exists (keeping its
insertion position), otherwise append. -/
def mapSet {β : Type} (m : List (String × β)) (k : String) (v : β) :
    List (String × β) :=
  if m.any (fun p => p.1 = k) then
    m.map (fun p => if p.1 = k then (k, v) else p)
  else
    m ++ [(k, v)]

/-- JavaScript `Map.delete` / `AsyncStorage.removeItem`. -/
def mapDelete {β : Type} (m : List (String × β)) (k : String) :
    List (String × β) :=
  m.filter (fun p => p.1 ≠ k)

/-- JavaScript `Map.get` / keyed lookup: first binding of the key. -/
def mapLookup {β : Type} (m : List (String × β)) (k : String) : Option β :=
  (m.find? (fun p => p.1 = k)).map (fun p => p.2)

/-- The whole mutable state of `HealthcareCacheManager`: the in-memory
`Map`, the `AsyncStorage` contents (raw keys, so non-cache keys of the host
app live here too), and whether the storage adapter is failing. -/
structure CacheState (α : Type) where
  memory : List (String × CacheEntry α)
  storage : List (String × CacheEntry α)
  storageFails : Bool
  deriving DecidableEq

/-- A fresh manager over an operational adapter: both tiers empty. -/
def initState (α : Type) : CacheState α := ⟨[], [], false⟩

/-- Source method `isExpired`: `Date.now() > entry.expiresAt`.  On a
number it is the strict comparison; on `NaN` every comparison is `false`;
on `null` JavaScript coerces `null` to `0`, so it is `now > 0`. -/
def isExpired {α : Type} (e : CacheEntry α) (now : Nat) : Bool :=
  match e.expiresAt with
  | .num t => decide (t < now)
  | .nan => false
  | .null => decide (0 < now)

/-- Rank table `priorityOrder` of the source: low 0, normal 1, high 2. -/
def priorityOrder : Priority → Nat
  | .low => 0
  | .normal => 1
  | .high => 2

/-- Rank table `typeOrder` of the source: non-critical 0, normal 1, critical 2. -/
def typeOrder : Sensitivity → Nat
  | .nonCritical => 0
  | .normal => 1
  | .critical => 2

/-- The eviction score `priorityOrder[e.priority] + typeOrder[e.type]`;
`none` models the `NaN` produced when either field is `undefined`. -/
def score {α : Type} (e : CacheEntry α) : Option Nat :=
  match e.priority, e.type with
  | some p, some t => some (priorityOrder p + typeOrder t)
  | _, _ => none

/-- Order used by the eviction sort.  With both scores defined it is the
numeric comparison of `aScore - bScore`; when either score is `NaN` the
comparator result is `NaN`, which the sort treats as a tie (no reorder),
rendered here as `True`. -/
def scoreLE {α : Type} (a b : String × CacheEntry α) : Prop :=
  match score a.2, score b.2 with
  | some x, some y => x ≤ y
  | _, _ => True

instance {α : Type} : DecidableRel (@scoreLE α) := by
  intro a b
  unfold scoreLE
  rcases score a.2 with _ | x <;> rcases score b.2 with _ | y <;>
    simp <;> infer_instance

/-- Snapshot `Array.from(this.memoryCache.entries())` sorted by the score
comparator (stable, ascending). -/
def sortEntries {α : Type} (m : List (String × CacheEntry α)) :
    List (String × CacheEntry α) :=
  List.insertionSort scoreLE m

/-- Source count `Math.max(1, Math.floor(this.maxMemoryCacheSize * 0.2))`; for the
configured capacity 50 the floating-point product is exactly 10. -/
def toRemoveCount : Nat := max 1 (maxMemoryCacheSize * 2 / 10)

/-- The keys deleted by the eviction loop: the first `toRemoveCount`
entries of the sorted snapshot. -/
def evictedKeys {α : Type} (m : List (String × CacheEntry α)) : List String :=
  ((sortEntries m).take toRemoveCount).map (fun p => p.1)

/-- Source method `evictFromMemoryCache`: delete the lowest-scoring `toRemoveCount`
entries from the map. -/
def evictFromMemoryCache {α : Type} (m : List (String × CacheEntry α)) :
    List (String × CacheEntry α) :=
  (evictedKeys m).foldl mapDelete m

/-- The `config` object `set` builds: `{ ...this.cacheConfigs[key],
...customConfig }`.  Each field comes from the override when present,
otherwise from the registry, otherwise it is `undefined`. -/
structure ResolvedConfig where
  maxAge : Option Nat
  priority : Option Priority
  type : Option Sensitivity
  deriving DecidableEq

/-- Spread-merge of the registry policy and the caller override. -/
def resolveConfig (key : String) (ov : ConfigOverride) : ResolvedConfig where
  maxAge := (ov.maxAge).orElse (fun _ => (cacheConfigs key).map (fun c => c.maxAge))
  priority := (ov.priority).orElse (fun _ => (cacheConfigs key).map (fun c => c.priority))
  type := (ov.type).orElse (fun _ => (cacheConfigs key).map (fun c => c.type))

/-- The `entry` object `set` builds: `expiresAt = now + config.maxAge`
(`NaN` when `maxAge` is `undefined`). -/
def mkEntry {α : Type} (key : String) (d : α) (ov : ConfigOverride)
    (now : Nat) : CacheEntry α :=
  let config := resolveConfig key ov
  { data := d
    timestamp := now
    expiresAt := match config.maxAge with
      | some a => JsTime.num (now + a)
      | none => JsTime.nan
    priority := config.priority
    type := config.type }

/-- Observable effect of the `JSON.stringify`/`JSON.parse` round trip on
the `expiresAt` number: a finite timestamp round-trips exactly, `NaN`
serializes to `null`, and a `null` stays `null`. -/
def serializeTime : JsTime → JsTime
  | .nan => .null
  | t => t

/-- Observable effect of the `JSON.stringify`/`JSON.parse` round trip on a
whole entry: `expiresAt` as in `serializeTime`; an `undefined` priority or
type is dropped by `stringify` and read back as `undefined`, and a defined
one round-trips exactly, so the `Option` fields are unchanged; `data` and
`timestamp` round-trip exactly. -/
def serializeEntry {α : Type} (e : CacheEntry α) : CacheEntry α :=
  { e with expiresAt := serializeTime e.expiresAt }

/-- Source method `setToStorage`: `JSON.stringify` then
`AsyncStorage.setItem` under the namespaced key, with the `catch` branch
discarding a failing write.  What a later read observes is the parse of
the stored text, i.e. `serializeEntry` of the written entry. -/
def setToStorage {α : Type} (st : CacheState α) (key : String)
    (e : CacheEntry α) : List (String × CacheEntry α) :=
  if st.storageFails then st.storage
  else mapSet st.storage (cacheNs ++ key) (serializeEntry e)

/-- Source method `getFromStorage`: `AsyncStorage.getItem` + `JSON.parse`, with the
`catch` branch turning a failing read into `null`. -/
def getFromStorage {α : Type} (st : CacheState α) (key : String) :
    Option (CacheEntry α) :=
  if st.storageFails then none else mapLookup st.storage (cacheNs ++ key)

/-- Source method `set`: resolve the config, build the entry, put it in the memory map,
evict if the map now exceeds capacity, then best-effort write to storage. -/
def setOp {α : Type} (st : CacheState α) (key : String) (d : α)
    (ov : ConfigOverride) (now : Nat) : CacheState α :=
  let entry := mkEntry key d ov now
  let mem := mapSet st.memory key entry
  let mem := if maxMemoryCacheSize < mem.length then evictFromMemoryCache mem else mem
  { st with memory := mem, storage := setToStorage st key entry }

/-- Source method `remove`: delete from the memory map and from storage (namespaced). -/
def removeOp {α : Type} (st : CacheState α) (key : String) : CacheState α :=
  { st with
    memory := mapDelete st.memory key
    storage := mapDelete st.storage (cacheNs ++ key) }

/-- The slow path of `get` once the memory fast path failed:
`memHit` records whether `memoryEntry` was non-null (it was then expired).
Mirrors: storage hit and fresh → promote (no capacity check) and return;
otherwise if either tier had the key, `remove` it; return `null`. -/
def getSlow {α : Type} (st : CacheState α) (key : String) (now : Nat)
    (memHit : Bool) : Option α × CacheState α :=
  match getFromStorage st key with
  | some se =>
    if isExpired se now then (none, removeOp st key)
    else (some se.data, { st with memory := mapSet st.memory key se })
  | none =>
    if memHit then (none, removeOp st key) else (none, st)

/-- Source method `get`: memory fast path when present and fresh, else the slow path. -/
def getOp {α : Type} (st : CacheState α) (key : String) (now : Nat) :
    Option α × CacheState α :=
  match mapLookup st.memory key with
  | some me =>
    if isExpired me now then getSlow st key now true else (some me.data, st)
  | none => getSlow st key now false

/-- Source method `clear`: empty the memory map; list all storage keys, keep those that
start with the cache namespace, `multiRemove` them. -/
def clearOp {α : Type} (st : CacheState α) : CacheState α :=
  let cacheKeys := (st.storage.map (fun p => p.1)).filter
    (fun k => strStarts k cacheNs)
  { st with memory := [], storage := cacheKeys.foldl mapDelete st.storage }

/-- The fixed warmup list `criticalKeys`. -/
def criticalKeys : List String :=
  ["userProfile", "medicalHistory", "emergencyContacts"]

/-- One iteration of the warmup loop: read the key from storage and, when a
record came back (`if (data)` — no expiry test), insert it into the memory
map with `priority: high, type: critical` spliced over the persisted
fields. -/
def warmupStep {α : Type} (st : CacheState α) (key : String) : CacheState α :=
  match getFromStorage st key with
  | some d =>
    let e := { d with priority := some Priority.high,
                      type := some Sensitivity.critical }
    { st with memory := mapSet st.memory key e }
  | none => st

/-- Source method `warmupCriticalCache`: the loop over `criticalKeys`.  The routine never
consults the clock. -/
def warmupCriticalCache {α : Type} (st : CacheState α) : CacheState α :=
  criticalKeys.foldl warmupStep st

/-- Facade operations a caller can issue, for reachability arguments. -/
inductive Op (α : Type) where
  | set (key : String) (d : α) (ov : ConfigOverride) (now : Nat)
  | get (key : String) (now : Nat)
  | remove (key : String)
  | clear
  | warmup
  deriving DecidableEq

/-- Apply one facade operation to the state. -/
def applyOp {α : Type} (st : CacheState α) : Op α → CacheState α
  | .set k d ov t => setOp st k d ov t
  | .get k t => (getOp st k t).2
  | .remove k => removeOp st k
  | .clear => clearOp st
  | .warmup => warmupCriticalCache st

/-- Run a sequence of facade operations. -/
def run {α : Type} (st : CacheState α) (ops : List (Op α)) : CacheState α :=
  ops.foldl applyOp st

/-! ### Association-list lemmas -/

theorem mapSet_of_mem {β : Type} (m : List (String × β)) (k : String) (v : β)
    (hm : (m.any (fun p => p.1 = k)) = true) :
    mapSet m k v = m.map (fun p => if p.1 = k then (k, v) else p) := by
  simp [mapSet, hm]

theorem mapSet_of_not_mem {β : Type} (m : List (String × β)) (k : String)
    (v : β) (hm : (m.any (fun p => p.1 = k)) = false) :
    mapSet m k v = m ++ [(k, v)] := by
  simp [mapSet, hm]

theorem mapLookup_map_replace {β : Type} (k : String) (v : β) :
    ∀ m : List (String × β),
      mapLookup (m.map (fun p => if p.1 = k then (k, v) else p)) k =
        if (m.any (fun p => p.1 = k)) = true then some v else none := by
  intro m
  induction m with
  | nil => simp [mapLookup]
  | cons a l ih =>
    by_cases ha : a.1 = k
    · simp only [List.map_cons, if_pos ha, mapLookup]
      rw [List.find?_cons_of_pos _ (by simp)]
      simp [ha]
    · simp only [List.map_cons, if_neg ha, mapLookup] at ih ⊢
      rw [List.find?_cons_of_neg _ (by simpa using ha)]
      rw [ih]
      have hd : decide (a.1 = k) = false := by simpa using ha
      rw [List.any_cons, hd, Bool.false_or]

theorem mapLookup_map_replace_ne {β : Type} (k k' : String) (v : β)
    (hk : k' ≠ k) :
    ∀ m : List (String × β),
      mapLookup (m.map (fun p => if p.1 = k then (k, v) else p)) k' =
        mapLookup m k' := by
  intro m
  induction m with
  | nil => simp
  | cons a l ih =>
    by_cases ha : a.1 = k
    · simp only [List.map_cons, if_pos ha, mapLookup] at ih ⊢
      rw [List.find?_cons_of_neg _ (by simpa using fun h : k = k' => hk h.symm),
        List.find?_cons_of_neg _ (by simpa using fun h : a.1 = k' => hk (ha ▸ h).symm)]
      exact ih
    · simp only [List.map_cons, if_neg ha, mapLookup] at ih ⊢
      by_cases hak : a.1 = k'
      · rw [List.find?_cons_of_pos _ (by simpa using hak),
          List.find?_cons_of_pos _ (by simpa using hak)]
      · rw [List.find?_cons_of_neg _ (by simpa using hak),
          List.find?_cons_of_neg _ (by simpa using hak)]
        exact ih

theorem mapLookup_append_self {β : Type} (k : String) (v : β) :
    ∀ m : List (String × β), (m.any (fun p => p.1 = k)) = false →
      mapLookup (m ++ [(k, v)]) k = some v := by
  intro m
  induction m with
  | nil =>
    intro _
    simp only [List.nil_append, mapLookup]
    rw [List.find?_cons_of_pos _ (by simp)]
    rfl
  | cons a l ih =>
    intro hm
    rw [List.any_cons, Bool.or_eq_false_iff] at hm
    simp only [List.cons_append, mapLookup] at ih ⊢
    rw [List.find?_cons_of_neg _ (by simpa using hm.1)]
    exact ih hm.2

theorem mapLookup_append_ne {β : Type} (k k' : String) (v : β) (hk : k' ≠ k) :
    ∀ m : List (String × β),
      mapLookup (m ++ [(k, v)]) k' = mapLookup m k' := by
  intro m
  induction m with
  | nil =>
    simp only [List.nil_append, mapLookup]
    rw [List.find?_cons_of_neg _ (by simpa using fun h : k = k' => hk h.symm)]
  | cons a l ih =>
    simp only [List.cons_append, mapLookup] at ih ⊢
    by_cases hak : a.1 = k'
    · rw [List.find?_cons_of_pos _ (by simpa using hak),
        List.find?_cons_of_pos _ (by simpa using hak)]
    · rw [List.find?_cons_of_neg _ (by simpa using hak),
        List.find?_cons_of_neg _ (by simpa using hak)]
      exact ih

theorem mapLookup_mapSet_self {β : Type} (m : List (String × β)) (k : String)
    (v : β) : mapLookup (mapSet m k v) k = some v := by
  cases hm : m.any (fun p => p.1 = k) with
  | true =>
    rw [mapSet_of_mem m k v hm, mapLookup_map_replace k v m, if_pos hm]
  | false =>
    rw [mapSet_of_not_mem m k v hm, mapLookup_append_self k v m hm]

theorem mapLookup_mapSet_ne {β : Type} (m : List (String × β)) (k k' : String)
    (v : β) (h : k' ≠ k) : mapLookup (mapSet m k v) k' = mapLookup m k' := by
  cases hm : m.any (fun p => p.1 = k) with
  | true => rw [mapSet_of_mem m k v hm, mapLookup_map_replace_ne k k' v h m]
  | false => rw [mapSet_of_not_mem m k v hm, mapLookup_append_ne k k' v h m]

theorem length_mapSet_le {β : Type} (m : List (String × β)) (k : String)
    (v : β) : (mapSet m k v).length ≤ m.length + 1 := by
  cases hm : m.any (fun p => p.1 = k) with
  | true => rw [mapSet_of_mem m k v hm]; simp
  | false => rw [mapSet_of_not_mem m k v hm]; simp

theorem keys_mapSet_nodup {β : Type} (m : List (String × β)) (k : String)
    (v : β) (h : (m.map Prod.fst).Nodup) :
    ((mapSet m k v).map Prod.fst).Nodup := by
  cases hm : m.any (fun p => p.1 = k) with
  | true =>
    rw [mapSet_of_mem m k v hm]
    have heq : (m.map (fun p => if p.1 = k then (k, v) else p)).map Prod.fst =
        m.map Prod.fst := by
      rw [List.map_map]
      apply List.map_congr_left
      intro p _
      by_cases hp : p.1 = k <;> simp [hp]
    rw [heq]
    exact h
  | false =>
    rw [mapSet_of_not_mem m k v hm, List.map_append]
    rw [List.nodup_append]
    refine ⟨h, List.nodup_singleton _, ?_⟩
    intro a ha hb
    simp only [List.map_cons, List.map_nil, List.mem_singleton] at hb
    subst hb
    rcases List.mem_map.1 ha with ⟨p, hp, hpk⟩
    rw [List.any_eq_false] at hm
    exact absurd hpk (by simpa using hm p hp)

theorem mem_mapDelete {β : Type} (m : List (String × β)) (k : String)
    (p : String × β) : p ∈ mapDelete m k ↔ p ∈ m ∧ p.1 ≠ k := by
  unfold mapDelete
  simp [List.mem_filter]

theorem mapLookup_mapDelete_self {β : Type} (k : String)
    (m : List (String × β)) : mapLookup (mapDelete m k) k = none := by
  unfold mapLookup mapDelete
  have : (m.filter (fun p => p.1 ≠ k)).find? (fun p => p.1 = k) = none := by
    rw [List.find?_eq_none]
    intro x hx
    have := (List.mem_filter.1 hx).2
    simpa using this
  rw [this]
  rfl

theorem mapLookup_mapDelete_ne {β : Type} (k k' : String) (hk : k ≠ k') :
    ∀ m : List (String × β), mapLookup (mapDelete m k') k = mapLookup m k := by
  intro m
  induction m with
  | nil => simp [mapDelete]
  | cons a l ih =>
    unfold mapDelete at ih ⊢
    by_cases ha : a.1 = k'
    · rw [List.filter_cons_of_neg (by simpa using ha)]
      rw [ih]
      simp only [mapLookup]
      rw [List.find?_cons_of_neg _ (by simpa using fun h : a.1 = k => hk (h ▸ ha))]
    · rw [List.filter_cons_of_pos (by simpa using ha)]
      by_cases hak : a.1 = k
      · simp only [mapLookup]
        rw [List.find?_cons_of_pos _ (by simpa using hak),
          List.find?_cons_of_pos _ (by simpa using hak)]
      · simp only [mapLookup]
        rw [List.find?_cons_of_neg _ (by simpa using hak),
          List.find?_cons_of_neg _ (by simpa using hak)]
        exact ih

theorem mapLookup_mapDelete {β : Type} (k k' : String)
    (m : List (String × β)) :
    mapLookup (mapDelete m k') k = if k = k' then none else mapLookup m k := by
  by_cases hk : k = k'
  · rw [if_pos hk, hk, mapLookup_mapDelete_self]
  · rw [if_neg hk, mapLookup_mapDelete_ne k k' hk m]

theorem mapLookup_foldl_mapDelete {β : Type} (ks : List String) :
    ∀ (m : List (String × β)) (k : String),
      mapLookup (ks.foldl mapDelete m) k =
        if k ∈ ks then none else mapLookup m k := by
  induction ks with
  | nil => intro m k; simp
  | cons key t ih =>
    intro m k
    simp only [List.foldl_cons, ih, List.mem_cons]
    by_cases hk : k = key
    · subst hk
      by_cases ht : k ∈ t <;> simp [ht, mapLookup_mapDelete]
    · by_cases ht : k ∈ t
      · simp [ht, hk]
      · simp [ht, hk, mapLookup_mapDelete]

theorem mem_foldl_mapDelete {β : Type} (ks : List String) :
    ∀ (m : List (String × β)) (p : String × β),
      p ∈ ks.foldl mapDelete m ↔ p ∈ m ∧ p.1 ∉ ks := by
  induction ks with
  | nil => intro m p; simp
  | cons key t ih =>
    intro m p
    simp only [List.foldl_cons, ih, mem_mapDelete, List.mem_cons]
    constructor
    · rintro ⟨⟨hm, hne⟩, ht⟩
      exact ⟨hm, by simp [hne, ht]⟩
    · rintro ⟨hm, hnot⟩
      simp only [not_or] at hnot
      exact ⟨⟨hm, hnot.1⟩, hnot.2⟩

theorem mapLookup_eq_none_of_not_mem_keys {β : Type}
    (m : List (String × β)) (k : String) (h : k ∉ m.map Prod.fst) :
    mapLookup m k = none := by
  unfold mapLookup
  induction m with
  | nil => simp
  | cons a l ih =>
    simp only [List.map_cons, List.mem_cons, not_or] at h
    rw [List.find?_cons_of_neg _ (by simpa using fun hh : a.1 = k => h.1 hh.symm)]
    exact ih h.2

theorem keys_unique {β : Type} (m : List (String × β))
    (hnd : (m.map Prod.fst).Nodup) (p q : String × β)
    (hp : p ∈ m) (hq : q ∈ m) (hkey : p.1 = q.1) : p = q := by
  induction m with
  | nil => simp at hp
  | cons a l ih =>
    simp only [List.map_cons, List.nodup_cons] at hnd
    rcases List.mem_cons.1 hp with rfl | hp'
    · rcases List.mem_cons.1 hq with rfl | hq'
      · rfl
      · exact absurd (hkey ▸ List.mem_map_of_mem Prod.fst hq') hnd.1
    · rcases List.mem_cons.1 hq with rfl | hq'
      · exact absurd (hkey ▸ List.mem_map_of_mem Prod.fst hp') hnd.1
      · exact ih hnd.2 hp' hq'

/-! ### Eviction lemmas -/

theorem scoreLE_trans_mid {α : Type} (a b c : String × CacheEntry α)
    (hb : (score b.2).isSome) (hab : scoreLE a b) (hbc : scoreLE b c) :
    scoreLE a c := by
  unfold scoreLE at hab hbc ⊢
  rcases hy : score b.2 with _ | y
  · rw [hy] at hb; simp at hb
  · rw [hy] at hab hbc
    rcases hx : score a.2 with _ | x
    · trivial
    · rcases hz : score c.2 with _ | z
      · trivial
      · rw [hx] at hab
        rw [hz] at hbc
        exact le_trans hab hbc

theorem scoreLE_total {α : Type} (a b : String × CacheEntry α) :
    scoreLE a b ∨ scoreLE b a := by
  unfold scoreLE
  rcases score a.2 with _ | x
  · left; trivial
  · rcases score b.2 with _ | y
    · left; trivial
    · exact le_total x y

theorem sorted_orderedInsert_defined {α : Type} (a : String × CacheEntry α) :
    ∀ l : List (String × CacheEntry α), (∀ p ∈ l, (score p.2).isSome) →
      l.Sorted scoreLE → (l.orderedInsert scoreLE a).Sorted scoreLE := by
  intro l
  induction l with
  | nil => intro _ _; simp [List.orderedInsert]
  | cons b t ih =>
    intro hdef hs
    rw [List.sorted_cons] at hs
    by_cases hab : scoreLE a b
    · rw [List.orderedInsert, if_pos hab, List.sorted_cons]
      constructor
      · intro x hx
        rcases List.mem_cons.1 hx with rfl | hx'
        · exact hab
        · exact scoreLE_trans_mid a b x (hdef b (by simp)) hab (hs.1 x hx')
      · rw [List.sorted_cons]
        exact hs
    · rw [List.orderedInsert, if_neg hab, List.sorted_cons]
      constructor
      · intro x hx
        rcases (List.mem_orderedInsert scoreLE).1 hx with h' | hx'
        · rw [h']
          exact (scoreLE_total a b).resolve_left hab
        · exact hs.1 x hx'
      · exact ih (fun p hp => hdef p (by simp [hp])) hs.2

theorem sorted_sortEntries_defined {α : Type}
    (m : List (String × CacheEntry α)) (hdef : ∀ p ∈ m, (score p.2).isSome) :
    (sortEntries m).Sorted scoreLE := by
  unfold sortEntries
  induction m with
  | nil => simp
  | cons a l ih =>
    rw [List.insertionSort]
    apply sorted_orderedInsert_defined a
    · intro p hp
      exact hdef p (by simp [(List.mem_insertionSort scoreLE).1 hp])
    · exact ih (fun p hp => hdef p (by simp [hp]))

theorem sortEntries_perm {α : Type} (m : List (String × CacheEntry α)) :
    List.Perm (sortEntries m) m :=
  List.perm_insertionSort scoreLE m

theorem length_filter_add_length_filter_not {γ : Type} (p : γ → Bool) :
    ∀ l : List γ,
      (l.filter p).length + (l.filter (fun a => !(p a))).length = l.length := by
  intro l
  induction l with
  | nil => simp
  | cons a t ih =>
    cases hpa : p a with
    | true =>
      rw [List.filter_cons_of_pos hpa,
        List.filter_cons_of_neg (by simp [hpa])]
      simp only [List.length_cons]
      omega
    | false =>
      rw [List.filter_cons_of_neg (by simp [hpa]),
        List.filter_cons_of_pos (by simp [hpa])]
      simp only [List.length_cons]
      omega

theorem map_fst_filter_key {β : Type} (g : String → Bool) :
    ∀ m : List (String × β),
      (m.filter (fun p => g p.1)).map Prod.fst = (m.map Prod.fst).filter g := by
  intro m
  induction m with
  | nil => simp
  | cons a l ih =>
    cases hga : g a.1 with
    | true => simp [List.filter_cons, hga, ih]
    | false => simp [List.filter_cons, hga, ih]

theorem length_filter_mem_of_nodup (l ks : List String) (hl : l.Nodup)
    (hks : ks.Nodup) (hsub : ∀ a ∈ ks, a ∈ l) :
    (l.filter (fun a => decide (a ∈ ks))).length = ks.length := by
  have hperm : List.Perm (l.filter (fun a => decide (a ∈ ks))) ks := by
    rw [List.perm_ext_iff_of_nodup (hl.filter _) hks]
    intro a
    simp only [List.mem_filter, decide_eq_true_eq]
    exact ⟨fun h => h.2, fun h => ⟨hsub a h, h⟩⟩
  exact hperm.length_eq

theorem keys_sortEntries_perm {α : Type} (m : List (String × CacheEntry α)) :
    List.Perm ((sortEntries m).map Prod.fst) (m.map Prod.fst) :=
  (sortEntries_perm m).map Prod.fst

theorem evictedKeys_eq_take {α : Type} (m : List (String × CacheEntry α)) :
    evictedKeys m = ((sortEntries m).map Prod.fst).take toRemoveCount := by
  unfold evictedKeys
  rw [List.map_take]

theorem evictedKeys_nodup {α : Type} (m : List (String × CacheEntry α))
    (h : (m.map Prod.fst).Nodup) : (evictedKeys m).Nodup := by
  rw [evictedKeys_eq_take]
  exact ((keys_sortEntries_perm m).nodup_iff.2 h).sublist
    (List.take_sublist _ _)

theorem evictedKeys_subset {α : Type} (m : List (String × CacheEntry α))
    (k : String) (h : k ∈ evictedKeys m) : k ∈ m.map Prod.fst := by
  rw [evictedKeys_eq_take] at h
  exact (keys_sortEntries_perm m).mem_iff.1
    (List.mem_of_mem_take h)

theorem evictedKeys_length {α : Type} (m : List (String × CacheEntry α)) :
    (evictedKeys m).length = min toRemoveCount m.length := by
  rw [evictedKeys_eq_take, List.length_take, List.length_map,
    (sortEntries_perm m).length_eq]

theorem foldl_mapDelete_eq_filter {β : Type} (ks : List String) :
    ∀ m : List (String × β),
      ks.foldl mapDelete m = m.filter (fun p => decide (p.1 ∉ ks)) := by
  induction ks with
  | nil =>
    intro m
    simp only [List.foldl_nil]
    have : ∀ p : String × β, decide (p.1 ∉ ([] : List String)) = true := by
      intro p; simp
    rw [List.filter_eq_self.2 (fun p _ => this p)]
  | cons key t ih =>
    intro m
    simp only [List.foldl_cons]
    rw [ih (mapDelete m key)]
    unfold mapDelete
    rw [List.filter_filter]
    apply List.filter_congr
    intro p _
    by_cases h1 : p.1 ∈ t <;> by_cases h2 : p.1 = key <;>
      simp [h1, h2, List.mem_cons]

theorem length_evict {α : Type} (m : List (String × CacheEntry α))
    (hnd : (m.map Prod.fst).Nodup) :
    (evictFromMemoryCache m).length = m.length - min toRemoveCount m.length := by
  unfold evictFromMemoryCache
  rw [foldl_mapDelete_eq_filter]
  have hpart := length_filter_add_length_filter_not
    (fun p : String × CacheEntry α => decide (p.1 ∈ evictedKeys m)) m
  have hin : (m.filter
      (fun p : String × CacheEntry α => decide (p.1 ∈ evictedKeys m))).length =
      (evictedKeys m).length := by
    have hmap := map_fst_filter_key
      (fun x => decide (x ∈ evictedKeys m)) m
    have : ((m.filter (fun p => decide (p.1 ∈ evictedKeys m))).map
        Prod.fst).length = ((m.map Prod.fst).filter
        (fun x => decide (x ∈ evictedKeys m))).length := by rw [hmap]
    rw [List.length_map] at this
    rw [this]
    exact length_filter_mem_of_nodup (m.map Prod.fst) (evictedKeys m) hnd
      (evictedKeys_nodup m hnd) (fun a ha => evictedKeys_subset m a ha)
  have hnotpred : (m.filter (fun p : String × CacheEntry α =>
      !(decide (p.1 ∈ evictedKeys m)))) =
      m.filter (fun p => decide (p.1 ∉ evictedKeys m)) := by
    apply List.filter_congr
    intro p _
    simp
  rw [hnotpred] at hpart
  rw [evictedKeys_length] at hin
  omega

/-! ### Operation-level lemmas -/

theorem mkEntry_of_policy {α : Type} (key : String) (c : CacheConfig)
    (hc : cacheConfigs key = some c) (v : α) (t0 : Nat) :
    mkEntry key v noOverride t0 =
      ⟨v, t0, JsTime.num (t0 + c.maxAge), some c.priority, some c.type⟩ := by
  unfold mkEntry resolveConfig noOverride
  simp [hc, Option.orElse]

theorem mkEntry_no_policy {α : Type} (key : String)
    (hc : cacheConfigs key = none) (v : α) (t0 : Nat) :
    mkEntry key v noOverride t0 = ⟨v, t0, JsTime.nan, none, none⟩ := by
  unfold mkEntry resolveConfig noOverride
  simp [hc, Option.orElse]

theorem setOp_memory {α : Type} (st : CacheState α) (key : String) (v : α)
    (ov : ConfigOverride) (t0 : Nat) :
    (setOp st key v ov t0).memory =
      if maxMemoryCacheSize < (mapSet st.memory key (mkEntry key v ov t0)).length
      then evictFromMemoryCache (mapSet st.memory key (mkEntry key v ov t0))
      else mapSet st.memory key (mkEntry key v ov t0) := rfl

theorem setOp_storage {α : Type} (st : CacheState α) (key : String) (v : α)
    (ov : ConfigOverride) (t0 : Nat) :
    (setOp st key v ov t0).storage = setToStorage st key (mkEntry key v ov t0) := rfl

theorem setOp_storageFails {α : Type} (st : CacheState α) (key : String)
    (v : α) (ov : ConfigOverride) (t0 : Nat) :
    (setOp st key v ov t0).storageFails = st.storageFails := rfl

theorem lookup_setOp_memory_self {α : Type} (st : CacheState α) (key : String)
    (v : α) (ov : ConfigOverride) (t0 : Nat) :
    mapLookup (setOp st key v ov t0).memory key = some (mkEntry key v ov t0) ∨
    mapLookup (setOp st key v ov t0).memory key = none := by
  rw [setOp_memory]
  by_cases h : maxMemoryCacheSize <
      (mapSet st.memory key (mkEntry key v ov t0)).length
  · rw [if_pos h]
    unfold evictFromMemoryCache
    rw [mapLookup_foldl_mapDelete]
    by_cases hk : key ∈ evictedKeys (mapSet st.memory key (mkEntry key v ov t0))
    · right; rw [if_pos hk]
    · left; rw [if_neg hk]; exact mapLookup_mapSet_self _ _ _
  · rw [if_neg h]
    left
    exact mapLookup_mapSet_self _ _ _

theorem getFromStorage_setOp_self {α : Type} (st : CacheState α)
    (key : String) (v : α) (ov : ConfigOverride) (t0 : Nat)
    (hst : st.storageFails = false) :
    getFromStorage (setOp st key v ov t0) key =
      some (serializeEntry (mkEntry key v ov t0)) := by
  unfold getFromStorage
  rw [setOp_storageFails, hst, if_neg (by simp), setOp_storage]
  unfold setToStorage
  rw [hst, if_neg (by simp)]
  exact mapLookup_mapSet_self _ _ _

theorem getOp_of_mem_fresh {α : Type} (st : CacheState α) (key : String)
    (now : Nat) (me : CacheEntry α) (h : mapLookup st.memory key = some me)
    (hf : isExpired me now = false) : getOp st key now = (some me.data, st) := by
  unfold getOp
  rw [h]
  simp [hf]

theorem getOp_of_mem_stale {α : Type} (st : CacheState α) (key : String)
    (now : Nat) (me : CacheEntry α) (h : mapLookup st.memory key = some me)
    (hf : isExpired me now = true) :
    getOp st key now = getSlow st key now true := by
  unfold getOp
  rw [h]
  simp [hf]

theorem getOp_of_none {α : Type} (st : CacheState α) (key : String)
    (now : Nat) (h : mapLookup st.memory key = none) :
    getOp st key now = getSlow st key now false := by
  unfold getOp
  rw [h]

theorem getSlow_storage_fresh {α : Type} (st : CacheState α) (key : String)
    (now : Nat) (b : Bool) (se : CacheEntry α)
    (h : getFromStorage st key = some se) (hf : isExpired se now = false) :
    getSlow st key now b =
      (some se.data, { st with memory := mapSet st.memory key se }) := by
  unfold getSlow
  rw [h]
  simp [hf]

theorem getSlow_storage_stale {α : Type} (st : CacheState α) (key : String)
    (now : Nat) (b : Bool) (se : CacheEntry α)
    (h : getFromStorage st key = some se) (hf : isExpired se now = true) :
    getSlow st key now b = (none, removeOp st key) := by
  unfold getSlow
  rw [h]
  simp [hf]

theorem getSlow_storage_none_memHit {α : Type} (st : CacheState α)
    (key : String) (now : Nat) (h : getFromStorage st key = none) :
    getSlow st key now true = (none, removeOp st key) := by
  unfold getSlow
  rw [h]
  simp

theorem getSlow_storage_none_memMiss {α : Type} (st : CacheState α)
    (key : String) (now : Nat) (h : getFromStorage st key = none) :
    getSlow st key now false = (none, st) := by
  unfold getSlow
  rw [h]
  simp

/-! ### Claim theorems -/

/-- Claim C1, counterexample: for the key `"sessionDraft"`, which has no
entry in `cacheConfigs`, a `set` with no override does not fail with a
`MissingPolicy` error — there is no error path at all.  It stores an entry
(with `NaN` expiry and undefined priority/type) that a later `get`
returns. -/
theorem set_without_policy_succeeds_concrete :
    cacheConfigs "sessionDraft" = none ∧
    mapLookup (setOp (initState Nat) "sessionDraft" 3 noOverride 100).memory
      "sessionDraft" = some ⟨3, 100, JsTime.nan, none, none⟩ ∧
    (getOp (setOp (initState Nat) "sessionDraft" 3 noOverride 100)
      "sessionDraft" 999999999).1 = some 3 := by decide

/-- Claim C1 (amended): `set` never fails.  For a key with no policy and no
override it silently builds an entry whose `expiresAt` is `NaN` and whose
priority and type are `undefined`, and (when the adapter works) persists
the serialized record — `NaN` written as JSON `null` — under the
namespaced key; no `MissingPolicy` error exists anywhere in the manager. -/
theorem set_without_policy_never_errors {α : Type} (st : CacheState α)
    (key : String) (v : α) (t0 : Nat) (hc : cacheConfigs key = none) :
    mkEntry key v noOverride t0 = ⟨v, t0, JsTime.nan, none, none⟩ ∧
    (st.storageFails = false →
      mapLookup (setOp st key v noOverride t0).storage (cacheNs ++ key) =
        some ⟨v, t0, JsTime.null, none, none⟩) := by
  have hmk := mkEntry_no_policy key hc v t0
  refine ⟨hmk, fun hst => ?_⟩
  rw [setOp_storage]
  unfold setToStorage
  rw [hst]
  simp only [Bool.false_eq_true, if_false]
  have hser : serializeEntry (mkEntry key v noOverride t0) =
      ⟨v, t0, JsTime.null, none, none⟩ := by
    rw [hmk]
    rfl
  rw [hser]
  exact mapLookup_mapSet_self _ _ _

/-- Witness for `set_without_policy_never_errors` at a concrete input. -/
theorem set_without_policy_never_errors_witness :
    cacheConfigs "draftNotes" = none ∧
    mkEntry "draftNotes" (5 : Nat) noOverride 7 =
      ⟨5, 7, JsTime.nan, none, none⟩ :=
  ⟨by decide,
    (set_without_policy_never_errors (initState Nat) "draftNotes" 5 7
      (by decide)).1⟩

/-- Claim C2, counterexample: `isExpired` uses the strict comparison
`Date.now() > expiresAt`, so at exactly `t0 + freshness_window` the entry is
still served; the claim requires `None` at every `t ≥ t0 + w`. -/
theorem get_at_exact_expiry_returns_value :
    cacheConfigs "emergencyContacts" =
      some ⟨6 * 60 * 60 * 1000, Priority.high, Sensitivity.critical⟩ ∧
    (getOp (setOp (initState Nat) "emergencyContacts" 7 noOverride 0)
      "emergencyContacts" (0 + 6 * 60 * 60 * 1000)).1 = some 7 := by decide

/-- Claim C2 (amended): with the durable tier operational, for a key with a
configured policy and no override, after `set` at `t0` a `get` returns the
value at every `t ≤ t0 + freshness_window` (including the boundary) and
returns `None` at every `t > t0 + freshness_window`; an entry is withheld
exactly when `expires_at < now`, not `expires_at ≤ now`. -/
theorem set_then_get_window {α : Type} (st : CacheState α) (key : String)
    (v : α) (c : CacheConfig) (t0 t : Nat)
    (hc : cacheConfigs key = some c) (hst : st.storageFails = false) :
    (t ≤ t0 + c.maxAge →
      (getOp (setOp st key v noOverride t0) key t).1 = some v) ∧
    (t0 + c.maxAge < t →
      (getOp (setOp st key v noOverride t0) key t).1 = none) := by
  have hentry := mkEntry_of_policy key c hc v t0
  have hstore := getFromStorage_setOp_self st key v noOverride t0 hst
  have hser : serializeEntry (mkEntry key v noOverride t0) =
      mkEntry key v noOverride t0 := by
    rw [hentry]
    rfl
  rw [hser] at hstore
  constructor
  · intro ht
    have hfresh : isExpired (mkEntry key v noOverride t0) t = false := by
      rw [hentry]
      simp only [isExpired, decide_eq_false_iff_not]
      omega
    rcases lookup_setOp_memory_self st key v noOverride t0 with hm | hm
    · rw [getOp_of_mem_fresh _ _ _ _ hm hfresh]
      simp [hentry]
    · rw [getOp_of_none _ _ _ hm,
        getSlow_storage_fresh _ _ _ _ _ hstore hfresh]
      simp [hentry]
  · intro ht
    have hstale : isExpired (mkEntry key v noOverride t0) t = true := by
      rw [hentry]
      simp only [isExpired, decide_eq_true_eq]
      omega
    rcases lookup_setOp_memory_self st key v noOverride t0 with hm | hm
    · rw [getOp_of_mem_stale _ _ _ _ hm hstale,
        getSlow_storage_stale _ _ _ _ _ hstore hstale]
    · rw [getOp_of_none _ _ _ hm,
        getSlow_storage_stale _ _ _ _ _ hstore hstale]

/-- Witness for `set_then_get_window` at a concrete input. -/
theorem set_then_get_window_witness :
    cacheConfigs "appointments" =
      some ⟨2 * 60 * 60 * 1000, Priority.normal, Sensitivity.normal⟩ ∧
    (initState Nat).storageFails = false ∧
    (getOp (setOp (initState Nat) "appointments" 42 noOverride 10)
      "appointments" 500).1 = some 42 ∧
    (getOp (setOp (initState Nat) "appointments" 42 noOverride 10)
      "appointments" (10 + 2 * 60 * 60 * 1000 + 1)).1 = none :=
  ⟨by decide, rfl,
    (set_then_get_window (initState Nat) "appointments" 42
      ⟨2 * 60 * 60 * 1000, Priority.normal, Sensitivity.normal⟩ 10 500
      (by decide) rfl).1 (by decide),
    (set_then_get_window (initState Nat) "appointments" 42
      ⟨2 * 60 * 60 * 1000, Priority.normal, Sensitivity.normal⟩ 10
      (10 + 2 * 60 * 60 * 1000 + 1) (by decide) rfl).2 (by decide)⟩

/-- Operation sequence for the claim C9 counterexample: one `set` of the
policy-less key `"sessionNotes"` followed by fifty `set` calls with other
policy-less keys; the fiftieth pushes the tier to 51 entries and the batch
eviction (all scores `NaN`, every comparison a tie, snapshot order kept)
drops the ten oldest residents, `"sessionNotes"` among them. -/
def nanRoundTripOps : List (Op Nat) :=
  [Op.set "sessionNotes" 7 noOverride 0] ++
  ((List.range 50).map (fun i => Op.set ("n" ++ toString i) 0 noOverride 0))

/-- Claim C9, counterexample: `get` does NOT return the value at every
later time.  After the eviction drops the fresh `NaN` entry from the Fast
Tier, the only copy left is the durable record whose `NaN` expiry was
serialized to JSON `null`; `Date.now() > null` is true at every `t ≥ 1`,
so the `get` at `t = 1` classifies it expired and returns `None`. -/
theorem nan_expiry_lost_after_eviction :
    cacheConfigs "sessionNotes" = none ∧
    mapLookup (run (initState Nat) nanRoundTripOps).memory "sessionNotes" =
      none ∧
    mapLookup (run (initState Nat) nanRoundTripOps).storage
      "gynaid_cache_sessionNotes" = some ⟨7, 0, JsTime.null, none, none⟩ ∧
    (getOp (run (initState Nat) nanRoundTripOps) "sessionNotes" 1).1 =
      none := by decide

/-- Claim C9 (amended): a `set` for a key with no configured policy and no
override does not fail: it stores an in-memory entry whose `expiresAt` is
`NaN` and whose priority and type are `undefined`, and since
`Date.now() > NaN` is `false` that in-memory entry is never classified as
expired — so as long as it stays in the Fast Tier (here: the `set` begins
below capacity and the `get` follows directly) `get` returns the value at
every later time.  But the durable copy serializes the `NaN` to JSON
`null`, which `isExpired` classifies as expired at every `t ≥ 1`, so once
eviction drops the in-memory entry the value is effectively lost. -/
theorem set_no_policy_fresh_only_in_memory {α : Type} (st : CacheState α)
    (key : String) (v : α) (t0 : Nat)
    (hc : cacheConfigs key = none)
    (hcap : st.memory.length < maxMemoryCacheSize) :
    (mkEntry key v noOverride t0).expiresAt = JsTime.nan ∧
    (mkEntry key v noOverride t0).priority = none ∧
    (mkEntry key v noOverride t0).type = none ∧
    (∀ t, isExpired (mkEntry key v noOverride t0) t = false) ∧
    (∀ t, (getOp (setOp st key v noOverride t0) key t).1 = some v) ∧
    (serializeEntry (mkEntry key v noOverride t0)).expiresAt =
      JsTime.null ∧
    (∀ t, 1 ≤ t →
      isExpired (serializeEntry (mkEntry key v noOverride t0)) t = true) := by
  have hmk := mkEntry_no_policy key hc v t0
  have hexp : ∀ t, isExpired (mkEntry key v noOverride t0) t = false := by
    intro t
    rw [hmk]
    rfl
  refine ⟨by rw [hmk], by rw [hmk], by rw [hmk], hexp, ?_, by rw [hmk]; rfl, ?_⟩
  · intro t
    have hlen : ¬ maxMemoryCacheSize <
        (mapSet st.memory key (mkEntry key v noOverride t0)).length := by
      have := length_mapSet_le st.memory key (mkEntry key v noOverride t0)
      omega
    have hmem : mapLookup (setOp st key v noOverride t0).memory key =
        some (mkEntry key v noOverride t0) := by
      rw [setOp_memory, if_neg hlen]
      exact mapLookup_mapSet_self _ _ _
    rw [getOp_of_mem_fresh _ _ _ _ hmem (hexp t)]
    simp [hmk]
  · intro t ht
    rw [hmk]
    simp only [serializeEntry, serializeTime, isExpired, decide_eq_true_eq]
    omega

/-- Witness for `set_no_policy_fresh_only_in_memory` at a concrete
input. -/
theorem set_no_policy_fresh_only_in_memory_witness :
    cacheConfigs "scratchPad" = none ∧
    (initState Nat).memory.length < maxMemoryCacheSize ∧
    (getOp (setOp (initState Nat) "scratchPad" 9 noOverride 4)
      "scratchPad" 123456789).1 = some 9 ∧
    isExpired (serializeEntry (mkEntry "scratchPad" (9 : Nat) noOverride 4))
      1 = true :=
  ⟨by decide, by decide,
    (set_no_policy_fresh_only_in_memory (initState Nat) "scratchPad" 9 4
      (by decide) (by decide)).2.2.2.2.1 123456789,
    (set_no_policy_fresh_only_in_memory (initState Nat) "scratchPad" 9 4
      (by decide) (by decide)).2.2.2.2.2.2 1 (by decide)⟩

theorem warmupStep_storage {α : Type} (st : CacheState α) (k : String) :
    (warmupStep st k).storage = st.storage := by
  unfold warmupStep
  cases h : getFromStorage st k <;> simp [h]

theorem warmupStep_storageFails {α : Type} (st : CacheState α) (k : String) :
    (warmupStep st k).storageFails = st.storageFails := by
  unfold warmupStep
  cases h : getFromStorage st k <;> simp [h]

theorem getFromStorage_warmupStep {α : Type} (st : CacheState α)
    (k k' : String) :
    getFromStorage (warmupStep st k') k = getFromStorage st k := by
  unfold getFromStorage
  rw [warmupStep_storageFails, warmupStep_storage]

theorem warmupStep_memory_ne {α : Type} (st : CacheState α) (k k' : String)
    (h : k ≠ k') :
    mapLookup (warmupStep st k').memory k = mapLookup st.memory k := by
  unfold warmupStep
  cases hg : getFromStorage st k' with
  | none => simp [hg]
  | some d =>
    simp only [hg]
    exact mapLookup_mapSet_ne st.memory k' k _ h

theorem warmupStep_memory_self {α : Type} (st : CacheState α) (k : String)
    (e : CacheEntry α) (h : getFromStorage st k = some e) :
    mapLookup (warmupStep st k).memory k =
      some { e with priority := some Priority.high,
                    type := some Sensitivity.critical } := by
  unfold warmupStep
  simp only [h]
  exact mapLookup_mapSet_self _ _ _

theorem warmupStep_memory_of_none {α : Type} (st : CacheState α) (k : String)
    (h : getFromStorage st k = none) : (warmupStep st k).memory = st.memory := by
  unfold warmupStep
  simp [h]

/-- Claim C3, counterexample: the warmup loop checks only `if (data)` and
never consults `isExpired`, so a durable record that is already expired
(here `expiresAt = 10` read at any time ≥ 10) is still inserted into the
memory tier (with the priority/type override). -/
theorem warmup_inserts_expired_record :
    isExpired (⟨5, 0, JsTime.num 10, some Priority.low,
      some Sensitivity.normal⟩ : CacheEntry Nat) 100 = true ∧
    mapLookup (warmupCriticalCache
      (⟨[], [("gynaid_cache_userProfile",
          ⟨5, 0, JsTime.num 10, some Priority.low, some Sensitivity.normal⟩)],
        false⟩ : CacheState Nat)).memory "userProfile" =
      some ⟨5, 0, JsTime.num 10, some Priority.high,
        some Sensitivity.critical⟩ := by
  decide

/-- Claim C3 (amended): for every critical key, the warmup routine inserts
the durable-tier record into the Fast Tier iff the record is present —
expired or not (no expiry check is performed) — and every inserted entry
has `priority = High` and `type = Critical` regardless of the persisted
values; when the record is absent the memory tier is untouched at that
key. -/
theorem warmup_inserts_iff_present {α : Type} (st : CacheState α)
    (k : String) (hk : k ∈ criticalKeys) :
    (∀ e, getFromStorage st k = some e →
      mapLookup (warmupCriticalCache st).memory k =
        some { e with priority := some Priority.high,
                      type := some Sensitivity.critical }) ∧
    (getFromStorage st k = none →
      mapLookup (warmupCriticalCache st).memory k = mapLookup st.memory k) := by
  have hrun : warmupCriticalCache st =
      warmupStep (warmupStep (warmupStep st "userProfile") "medicalHistory")
        "emergencyContacts" := rfl
  simp only [criticalKeys, List.mem_cons, List.not_mem_nil, or_false] at hk
  rcases hk with rfl | rfl | rfl
  · constructor
    · intro e he
      rw [hrun,
        warmupStep_memory_ne _ _ _ (by decide),
        warmupStep_memory_ne _ _ _ (by decide),
        warmupStep_memory_self st "userProfile" e he]
    · intro he
      rw [hrun,
        warmupStep_memory_ne _ _ _ (by decide),
        warmupStep_memory_ne _ _ _ (by decide)]
      rw [warmupStep_memory_of_none st "userProfile" he]
  · constructor
    · intro e he
      rw [hrun,
        warmupStep_memory_ne _ _ _ (by decide),
        warmupStep_memory_self _ "medicalHistory" e
          (by rw [getFromStorage_warmupStep]; exact he)]
    · intro he
      rw [hrun,
        warmupStep_memory_ne _ _ _ (by decide),
        warmupStep_memory_of_none _ "medicalHistory"
          (by rw [getFromStorage_warmupStep]; exact he),
        warmupStep_memory_ne _ _ _ (by decide)]
  · constructor
    · intro e he
      rw [hrun,
        warmupStep_memory_self _ "emergencyContacts" e
          (by rw [getFromStorage_warmupStep, getFromStorage_warmupStep]; exact he)]
    · intro he
      rw [hrun,
        warmupStep_memory_of_none _ "emergencyContacts"
          (by rw [getFromStorage_warmupStep, getFromStorage_warmupStep]; exact he),
        warmupStep_memory_ne _ _ _ (by decide),
        warmupStep_memory_ne _ _ _ (by decide)]

/-- Witness for `warmup_inserts_iff_present` at a concrete input. -/
theorem warmup_inserts_iff_present_witness :
    "medicalHistory" ∈ criticalKeys ∧
    mapLookup (warmupCriticalCache
      (⟨[], [("gynaid_cache_medicalHistory",
          ⟨1, 2, JsTime.num 3, none, none⟩)], false⟩ : CacheState Nat)).memory
      "medicalHistory" =
      some ⟨1, 2, JsTime.num 3, some Priority.high,
        some Sensitivity.critical⟩ :=
  ⟨by decide,
    (warmup_inserts_iff_present
      (⟨[], [("gynaid_cache_medicalHistory",
          ⟨1, 2, JsTime.num 3, none, none⟩)],
        false⟩ : CacheState Nat) "medicalHistory" (by decide)).1
      ⟨1, 2, JsTime.num 3, none, none⟩ (by decide)⟩

theorem clearOp_memory {α : Type} (st : CacheState α) :
    (clearOp st).memory = [] := rfl

theorem clearOp_storage {α : Type} (st : CacheState α) :
    (clearOp st).storage =
      (((st.storage.map (fun p => p.1)).filter
        (fun k => strStarts k cacheNs))).foldl mapDelete st.storage := rfl

/-- Claim C7: after `clear()` the memory tier is empty, every storage key
that starts with the cache namespace `gynaid_cache_` is gone, and every
storage binding whose key does not start with that namespace is untouched
(and nothing new appears). -/
theorem clear_spec {α : Type} (st : CacheState α) :
    (clearOp st).memory = [] ∧
    (∀ k, strStarts k cacheNs = true →
      mapLookup (clearOp st).storage k = none) ∧
    (∀ p, p ∈ st.storage → strStarts p.1 cacheNs = false →
      p ∈ (clearOp st).storage) ∧
    (∀ p, p ∈ (clearOp st).storage → p ∈ st.storage) := by
  refine ⟨rfl, ?_, ?_, ?_⟩
  · intro k hk
    rw [clearOp_storage, mapLookup_foldl_mapDelete]
    by_cases hmem : k ∈ (st.storage.map (fun p => p.1)).filter
        (fun k => strStarts k cacheNs)
    · rw [if_pos hmem]
    · rw [if_neg hmem]
      apply mapLookup_eq_none_of_not_mem_keys
      intro hkeys
      exact hmem (List.mem_filter.2 ⟨hkeys, hk⟩)
  · intro p hp hpre
    rw [clearOp_storage]
    rw [mem_foldl_mapDelete]
    refine ⟨hp, fun hmem => ?_⟩
    have := (List.mem_filter.1 hmem).2
    rw [hpre] at this
    exact Bool.false_ne_true this
  · intro p hp
    rw [clearOp_storage, mem_foldl_mapDelete] at hp
    exact hp.1

/-- Witness for `clear_spec` at a concrete input. -/
theorem clear_spec_witness :
    mapLookup (clearOp (⟨[("userProfile", ⟨1, 0, JsTime.num 5, none, none⟩)],
      [("gynaid_cache_userProfile", ⟨1, 0, JsTime.num 5, none, none⟩),
       ("app_theme", ⟨2, 0, JsTime.num 9, none, none⟩)], false⟩ :
        CacheState Nat)).storage "gynaid_cache_userProfile" = none ∧
    ("app_theme", (⟨2, 0, JsTime.num 9, none, none⟩ : CacheEntry Nat)) ∈
      (clearOp (⟨[("userProfile", ⟨1, 0, JsTime.num 5, none, none⟩)],
        [("gynaid_cache_userProfile", ⟨1, 0, JsTime.num 5, none, none⟩),
         ("app_theme", ⟨2, 0, JsTime.num 9, none, none⟩)], false⟩ :
          CacheState Nat)).storage ∧
    (clearOp (⟨[("userProfile", ⟨1, 0, JsTime.num 5, none, none⟩)],
      [("gynaid_cache_userProfile", ⟨1, 0, JsTime.num 5, none, none⟩),
       ("app_theme", ⟨2, 0, JsTime.num 9, none, none⟩)], false⟩ :
        CacheState Nat)).memory = [] :=
  ⟨(clear_spec _).2.1 "gynaid_cache_userProfile" (by decide),
    (clear_spec _).2.2.1 ("app_theme", ⟨2, 0, JsTime.num 9, none, none⟩)
      (by decide) (by decide),
    (clear_spec _).1⟩

/-- Claim C5: when eviction fires with at least 10 resident entries (under
the configured capacity 50, `toRemoveCount` is `max(1, floor(50*0.2)) =
10`), exactly 10 entries are removed, and — with
`score = priorityOrder + typeOrder` — the score of every evicted entry is
at most the score of every retained entry. -/
theorem evict_removes_ten_lowest {α : Type}
    (m : List (String × CacheEntry α))
    (hnd : (m.map Prod.fst).Nodup) (hlen : 10 ≤ m.length)
    (hdef : ∀ p ∈ m, (score p.2).isSome) :
    (evictFromMemoryCache m).length + 10 = m.length ∧
    ∀ p ∈ m, p.1 ∈ evictedKeys m →
      ∀ q ∈ evictFromMemoryCache m, ∀ x y,
        score p.2 = some x → score q.2 = some y → x ≤ y := by
  constructor
  · have hev := length_evict m hnd
    have h10 : toRemoveCount = 10 := by decide
    rw [h10] at hev
    omega
  · intro p hp hpk q hq x y hx hy
    have hsorted : (sortEntries m).Sorted scoreLE :=
      sorted_sortEntries_defined m hdef
    have hperm := sortEntries_perm m
    have hq' := (mem_foldl_mapDelete (evictedKeys m) m q).1 hq
    obtain ⟨p', hpTake, hpKey⟩ :
        ∃ p', p' ∈ (sortEntries m).take toRemoveCount ∧ p'.1 = p.1 := by
      unfold evictedKeys at hpk
      rcases List.mem_map.1 hpk with ⟨p', h1, h2⟩
      exact ⟨p', h1, h2⟩
    have hpMem : p' ∈ m := hperm.mem_iff.1 (List.mem_of_mem_take hpTake)
    have hpp' : p = p' := keys_unique m hnd p p' hp hpMem hpKey.symm
    have hqs : q ∈ sortEntries m := hperm.mem_iff.2 hq'.1
    have hqsplit : q ∈ (sortEntries m).take toRemoveCount ++
        (sortEntries m).drop toRemoveCount := by
      rw [List.take_append_drop]
      exact hqs
    have hqd : q ∈ (sortEntries m).drop toRemoveCount := by
      rcases List.mem_append.1 hqsplit with h | h
      · exfalso
        apply hq'.2
        unfold evictedKeys
        exact List.mem_map_of_mem (fun r => r.1) h
      · exact h
    have hpw : List.Pairwise scoreLE ((sortEntries m).take toRemoveCount ++
        (sortEntries m).drop toRemoveCount) := by
      rw [List.take_append_drop]
      exact hsorted
    have hcross := (List.pairwise_append.1 hpw).2.2
    have hle : scoreLE p' q := hcross p' hpTake q hqd
    rw [← hpp'] at hle
    unfold scoreLE at hle
    rw [hx, hy] at hle
    exact hle

/-- Witness for `evict_removes_ten_lowest` at a concrete input. -/
theorem evict_removes_ten_lowest_witness :
    10 ≤ ((List.range 10).map (fun i =>
      (toString i, (⟨i, 0, JsTime.num 0, some Priority.low,
        some Sensitivity.nonCritical⟩ : CacheEntry Nat)))).length ∧
    (evictFromMemoryCache ((List.range 10).map (fun i =>
      (toString i, (⟨i, 0, JsTime.num 0, some Priority.low,
        some Sensitivity.nonCritical⟩ : CacheEntry Nat))))).length + 10 =
      ((List.range 10).map (fun i =>
        (toString i, (⟨i, 0, JsTime.num 0, some Priority.low,
          some Sensitivity.nonCritical⟩ : CacheEntry Nat)))).length :=
  ⟨by decide,
    (evict_removes_ten_lowest _ (by decide) (by decide) (by decide)).1⟩

/-- Operation sequence refuting claim C4: sixty `set` calls with distinct
policy-less keys (the tier caps at 50, the durable tier keeps all sixty),
then ten `get` calls re-promoting the evicted keys (no capacity check on
promotion, tier grows to 60), then one more `set` (61 resident, eviction
removes only 10, leaving 51). -/
def promoteOverflowOps : List (Op Nat) :=
  ((List.range 60).map (fun i => Op.set ("k" ++ toString i) 0 noOverride 0)) ++
  ((List.range 10).map (fun i => Op.get ("k" ++ toString i) 0)) ++
  [Op.set "k60" 0 noOverride 0]

/-- Claim C4, counterexample: a reachable state (60 sets, then 10
promoting gets) leaves the Fast Tier at 60 entries, and the next `set`
returns with 61 - 10 = 51 entries — strictly above the capacity 50. -/
theorem set_after_promotions_exceeds_capacity :
    (run (initState Nat) promoteOverflowOps).memory.length = 51 ∧
    maxMemoryCacheSize < (run (initState Nat) promoteOverflowOps).memory.length := by
  decide

/-- Claim C4 (amended): a `set` that starts from a Fast Tier at or below
its capacity of 50 (with well-formed distinct keys) returns with the tier
at or below 50, and mid-`set` the tier exceeds the capacity by at most the
single pending insert; the unconditional bound fails because `get`
promotions can first push the tier above capacity. -/
theorem set_capacity_bound {α : Type} (st : CacheState α) (key : String)
    (v : α) (ov : ConfigOverride) (t0 : Nat)
    (hnd : (st.memory.map Prod.fst).Nodup)
    (hcap : st.memory.length ≤ maxMemoryCacheSize) :
    (mapSet st.memory key (mkEntry key v ov t0)).length ≤
      maxMemoryCacheSize + 1 ∧
    (setOp st key v ov t0).memory.length ≤ maxMemoryCacheSize := by
  have h1 : (mapSet st.memory key (mkEntry key v ov t0)).length ≤
      st.memory.length + 1 := length_mapSet_le _ _ _
  refine ⟨by omega, ?_⟩
  rw [setOp_memory]
  by_cases h : maxMemoryCacheSize <
      (mapSet st.memory key (mkEntry key v ov t0)).length
  · rw [if_pos h]
    have hnd' := keys_mapSet_nodup st.memory key (mkEntry key v ov t0) hnd
    have hev := length_evict _ hnd'
    have h10 : toRemoveCount = 10 := by decide
    have h50 : maxMemoryCacheSize = 50 := rfl
    rw [h10] at hev
    rw [h50] at h hcap ⊢
    omega
  · rw [if_neg h]
    omega

/-- Witness for `set_capacity_bound` at a concrete input. -/
theorem set_capacity_bound_witness :
    ((initState Nat).memory.map Prod.fst).Nodup ∧
    (initState Nat).memory.length ≤ maxMemoryCacheSize ∧
    (setOp (initState Nat) "providers" 3 noOverride 0).memory.length ≤
      maxMemoryCacheSize :=
  ⟨by decide, by decide,
    (set_capacity_bound (initState Nat) "providers" 3 noOverride 0
      (by decide) (by decide)).2⟩

/-- Operation sequence for claim C8: sixty `set` calls with distinct
policy-less keys (ten of them evicted, all sixty persisted), then a single
`get` of an evicted key. -/
def promotionOps : List (Op Nat) :=
  ((List.range 60).map (fun i => Op.set ("g" ++ toString i) 0 noOverride 0)) ++
  [Op.get "g0" 0]

/-- Claim C8: `get`-promotion performs no capacity check and triggers no
eviction — after sixty sets the tier holds exactly 50 entries, and one
`get` of a durable-only key leaves it at 51, strictly above the
capacity. -/
theorem get_promotion_exceeds_capacity :
    (run (initState Nat) ((List.range 60).map
      (fun i => Op.set ("g" ++ toString i) 0 noOverride 0))).memory.length =
      maxMemoryCacheSize ∧
    (run (initState Nat) promotionOps).memory.length = 51 ∧
    maxMemoryCacheSize < 51 := by decide

/-- Operation sequence for claim C10: fifty `set` calls whose override
pins `priority = high, type = critical` (score 4), then a `set` of
`"notifications"` whose policy scores `low` + `non-critical` = 0. -/
def selfEvictOps : List (Op Nat) :=
  ((List.range 50).map (fun i => Op.set ("h" ++ toString i) 0
    ⟨some 1000000, some Priority.high, some Sensitivity.critical⟩ 0)) ++
  [Op.set "notifications" 7 noOverride 0]

/-- Claim C10: the eviction run by a `set` sorts all 51 resident entries
including the one just inserted, so with 50 higher-scoring residents the
`set` of the low-scoring `"notifications"` immediately evicts its own
insert: after the `set` the key is absent from the memory tier but present
in the durable tier. -/
theorem set_can_evict_own_insert :
    mapLookup (run (initState Nat) selfEvictOps).memory "notifications" =
      none ∧
    mapLookup (run (initState Nat) selfEvictOps).storage
      "gynaid_cache_notifications" =
      some ⟨7, 0, JsTime.num 1800000, some Priority.low,
        some Sensitivity.nonCritical⟩ ∧
    ((run (initState Nat) ((List.range 50).map (fun i =>
      Op.set ("h" ++ toString i) 0
        ⟨some 1000000, some Priority.high, some Sensitivity.critical⟩
        0))).memory.all (fun p => score p.2 == some 4)) = true ∧
    (run (initState Nat) ((List.range 50).map (fun i =>
      Op.set ("h" ++ toString i) 0
        ⟨some 1000000, some Priority.high, some Sensitivity.critical⟩
        0))).memory.length = maxMemoryCacheSize := by decide

/-- Operation sequence for the claim C6 counterexample: with a failing
adapter, fifty high/critical-override `set` calls fill the tier with
score-4 entries, then `set "notifications"` (policy score 0) is immediately
evicted and its durable write is a no-op. -/
def lostWriteOps : List (Op Nat) :=
  ((List.range 50).map (fun i => Op.set ("f" ++ toString i) 0
    ⟨some 1000000, some Priority.high, some Sensitivity.critical⟩ 0)) ++
  [Op.set "notifications" 7 noOverride 0]

/-- Claim C6, counterexample: with every durable write failing, a `set`
into a full Fast Tier of higher-scoring entries immediately evicts the new
entry, and — the durable copy never having been written — a `get` well
inside the freshness window returns `None`, not the stored value. -/
theorem storage_failure_with_eviction_loses_value :
    cacheConfigs "notifications" =
      some ⟨30 * 60 * 1000, Priority.low, Sensitivity.nonCritical⟩ ∧
    (getOp (run (⟨[], [], true⟩ : CacheState Nat) lostWriteOps)
      "notifications" 1).1 = none := by decide

/-- Claim C6 (amended): with every durable write and read failing, a `set`
into a Fast Tier below capacity still returns successfully, the failing
write is swallowed (storage unchanged), and a `get` before `expires_at`
still returns the value from the Fast Tier; the unconditional form fails
only when the batch eviction immediately drops the new entry. -/
theorem set_get_with_failing_storage {α : Type} (st : CacheState α)
    (key : String) (v : α) (c : CacheConfig) (t0 t : Nat)
    (hc : cacheConfigs key = some c) (hst : st.storageFails = true)
    (hcap : st.memory.length < maxMemoryCacheSize)
    (ht : t < t0 + c.maxAge) :
    (setOp st key v noOverride t0).storage = st.storage ∧
    (getOp (setOp st key v noOverride t0) key t).1 = some v := by
  constructor
  · rw [setOp_storage]
    unfold setToStorage
    rw [hst]
    simp
  · have hmk := mkEntry_of_policy key c hc v t0
    have hlen : ¬ maxMemoryCacheSize <
        (mapSet st.memory key (mkEntry key v noOverride t0)).length := by
      have := length_mapSet_le st.memory key (mkEntry key v noOverride t0)
      omega
    have hmem : mapLookup (setOp st key v noOverride t0).memory key =
        some (mkEntry key v noOverride t0) := by
      rw [setOp_memory, if_neg hlen]
      exact mapLookup_mapSet_self _ _ _
    have hfresh : isExpired (mkEntry key v noOverride t0) t = false := by
      rw [hmk]
      simp only [isExpired, decide_eq_false_iff_not]
      omega
    rw [getOp_of_mem_fresh _ _ _ _ hmem hfresh]
    simp [hmk]

/-- Witness for `set_get_with_failing_storage` at a concrete input. -/
theorem set_get_with_failing_storage_witness :
    cacheConfigs "appointments" =
      some ⟨2 * 60 * 60 * 1000, Priority.normal, Sensitivity.normal⟩ ∧
    (⟨[], [], true⟩ : CacheState Nat).storageFails = true ∧
    (setOp (⟨[], [], true⟩ : CacheState Nat) "appointments" 11 noOverride
      0).storage = [] ∧
    (getOp (setOp (⟨[], [], true⟩ : CacheState Nat) "appointments" 11
      noOverride 0) "appointments" 5).1 = some 11 :=
  ⟨by decide, rfl,
    (set_get_with_failing_storage (⟨[], [], true⟩ : CacheState Nat)
      "appointments" 11 ⟨2 * 60 * 60 * 1000, Priority.normal,
        Sensitivity.normal⟩ 0 5 (by decide) rfl (by decide) (by decide)).1,
    (set_get_with_failing_storage (⟨[], [], true⟩ : CacheState Nat)
      "appointments" 11 ⟨2 * 60 * 60 * 1000, Priority.normal,
        Sensitivity.normal⟩ 0 5 (by decide) rfl (by decide) (by decide)).2⟩
